import Mathlib

/-
  Verification development for the RMHL reservoir-computing model
  (ModelRMHL.py).  The simulation core is embedded shallowly over the
  rationals: numpy arrays become total functions that are zero outside
  their declared shape, and every array write is guarded by the shape of
  the numpy array it models.  Real-valued primitives that the script
  takes from numpy and scipy (np.tanh, np.sqrt, scipy.stats.norm.ppf,
  the seeded uniform stream of np.random) are parameters of the
  embedding, collected in the structure Env below; the Task collaborator
  of the script, whose sources are not part of the repository, is the
  abstract structure Task, modelled from the specification of its
  interface (psi, h, cost, phi, compensation, norm, round_up, rand_int,
  data).
-/

namespace SupertrexRMHL

/-- Numeric primitives supplied by numpy and scipy.  The field ustream
models the seeded generator: ustream seed i is the i-th uniform draw in
the interval from 0 to 1 produced after np.random.seed seed.  The field
toInt models the reduction of a uniform draw to an integer below the
given bound, as used by the rand_int collaborator of the Task.  tanh,
sqrt and ppf model np.tanh, np.sqrt and scipy.stats.norm.ppf. -/
structure Env where
  tanh : ℚ → ℚ
  sqrt : ℚ → ℚ
  ppf : ℚ → ℚ
  ustream : ℕ → ℕ → ℚ
  toInt : ℕ → ℚ → ℕ

/-- Modelled from the spec: the Task collaborator (its source file is
not part of the repository).  It exposes psi, h, cost, phi,
compensation (the scalar returned for the RMHL variant), norm, round_up
and the precomputed target trajectory data with x and y arrays. -/
structure Task where
  psi : ℚ → ℕ → ℕ → ℚ
  h : (ℕ → ℚ) → (ℕ → ℚ)
  cost : (ℕ → ℚ) → ℚ
  phi : ℚ → ℚ
  compensation : ℚ
  norm : (ℕ → ℕ → ℚ) → ℚ
  roundUp : ℚ → ℕ
  dataX : ℕ → ℚ
  dataY : ℕ → ℚ

/-- The model parameters of ModelRMHL.__init__ (fields of the
parameters dictionary, together with the timespan T and the output
dimension n_out that come from the experiment description). -/
structure Params where
  N : ℕ
  nOut : ℕ
  lmbda : ℚ
  sparsity : ℚ
  dT : ℚ
  tau : ℚ
  tauW : ℚ
  tauE : ℚ
  tauZ : ℚ
  alpha : ℚ
  T : ℚ
  n_train_trials : ℕ
  n_test_trials : ℕ

/-- s.leak = s.dT / s.tau. -/
def leak (p : Params) : ℚ := p.dT / p.tau

/-- s.n_timesteps = int(s.T / s.dT). -/
def nTimesteps (p : Params) : ℕ := Int.toNat ⌊p.T / p.dT⌋

/-- s.n_total_trials = n_train_trials + n_test_trials. -/
def nTotal (p : Params) : ℕ := p.n_train_trials + p.n_test_trials

/-- s.sigma = s.lmbda / np.sqrt(s.sparsity * s.N). -/
def sigmaOf (env : Env) (p : Params) : ℚ :=
  p.lmbda / env.sqrt (p.sparsity * (p.N : ℚ))

/-- s.learningrate = .0005, hard coded in __init__. -/
def learningrate : ℚ := 5 / 10000

/-- s.outputs[t] : the target point at timestep t, a 2-vector built by
column-stacking the x and y data arrays of the task. -/
def outputsOf (task : Task) (t j : ℕ) : ℚ :=
  if j = 0 then task.dataX t else if j = 1 then task.dataY t else 0

/-- Jne = task.round_up(N * N * sparsity), the requested number of
nonzero reservoir connections. -/
def JneOf (task : Task) (p : Params) : ℕ :=
  task.roundUp ((p.N : ℚ) * (p.N : ℚ) * p.sparsity)

/-- idx_x = task.rand_int(N, Jne): the i-th row index drawn for the
reservoir wiring, consuming the i-th draw of the seeded stream. -/
def idxX (env : Env) (task : Task) (p : Params) (seed i : ℕ) : ℕ :=
  env.toInt p.N (env.ustream seed i)

/-- idx_y = task.rand_int(N, Jne): the i-th column index drawn for the
reservoir wiring, consuming the draws after those of idx_x. -/
def idxY (env : Env) (task : Task) (p : Params) (seed i : ℕ) : ℕ :=
  env.toInt p.N (env.ustream seed (JneOf task p + i))

/-- The set of cell positions receiving a 1 in s.J[idx_x, idx_y] = 1:
duplicated index pairs overwrite, hence a finite set image. -/
def selPairs (env : Env) (task : Task) (p : Params) (seed : ℕ) : Finset (ℕ × ℕ) :=
  (Finset.range (JneOf task p)).image
    (fun i => (idxX env task p seed i, idxY env task p seed i))

/-- Row-major rank of a selected position among the selected positions,
matching the order in which np.nonzero lists them. -/
def rowRank (sel : Finset (ℕ × ℕ)) (a b : ℕ) : ℕ :=
  (sel.filter (fun q => q.1 < a ∨ (q.1 = a ∧ q.2 < b))).card

/-- Jcnz = np.count_nonzero(s.J) right after the 1-assignments. -/
def JcnzOf (env : Env) (task : Task) (p : Params) (seed : ℕ) : ℕ :=
  (selPairs env task p seed).card

/-- The final reservoir matrix s.J: selected positions carry
stats.norm.ppf(np.random.uniform()) * sigma (the uniform draws for Jr
are consumed after the 2 * Jne wiring draws, in row-major order of the
nonzero positions); all other entries are zero. -/
def Jmat (env : Env) (task : Task) (p : Params) (seed : ℕ) : ℕ → ℕ → ℚ :=
  fun a b =>
    if a < p.N ∧ b < p.N ∧ (a, b) ∈ selPairs env task p seed then
      env.ppf (env.ustream seed
        (2 * JneOf task p + rowRank (selPairs env task p seed) a b)) * sigmaOf env p
    else 0

/-- Stream offset after the wiring draws, the Jr draws, and the 2090
draws of the hard-coded unnec burn. -/
def qOff (env : Env) (task : Task) (p : Params) (seed : ℕ) : ℕ :=
  2 * JneOf task p + JcnzOf env task p seed + 2090

/-- s.Q = (np.random.rand(n_out, N) * 2 - 1).T, an N by n_out matrix;
the draw of cell (i, j) of the untransposed matrix is row-major. -/
def Qmat (env : Env) (task : Task) (p : Params) (seed : ℕ) : ℕ → ℕ → ℚ :=
  fun a b =>
    if a < p.N ∧ b < p.nOut then
      env.ustream seed (qOff env task p seed + b * p.N + a) * 2 - 1
    else 0

/-- s.x = np.random.rand(N, 1) - .5. -/
def x0 (env : Env) (task : Task) (p : Params) (seed : ℕ) : ℕ → ℚ :=
  fun a =>
    if a < p.N then
      env.ustream seed (qOff env task p seed + p.nOut * p.N + a) - 1 / 2
    else 0

/-- s.r = np.tanh(s.x). -/
def r0 (env : Env) (task : Task) (p : Params) (seed : ℕ) : ℕ → ℚ :=
  fun a => if a < p.N then env.tanh (x0 env task p seed a) else 0

/-- The two weight matrices that are fixed after build. -/
structure Net where
  J : ℕ → ℕ → ℚ
  Q : ℕ → ℕ → ℚ

/-- The mutable attributes of the model object: reservoir state, output,
readout weights, traces, and the recording arrays. -/
structure State where
  x : ℕ → ℚ
  r : ℕ → ℚ
  z : ℕ → ℚ
  W : ℕ → ℕ → ℚ
  e : ℚ
  eBar : ℚ
  zBar : ℕ → ℚ
  zRMHLBar : ℕ → ℚ
  error : ℕ → ℕ → ℚ
  costRec : ℕ → ℕ → ℚ
  WRec : ℕ → ℕ → ℚ
  zRec : ℕ → ℕ → ℕ → ℚ
  zRMHLRec : ℕ → ℕ → ℕ → ℚ
  hzRec : ℕ → ℕ → ℕ → ℚ

/-- Pointwise write into a (trial, timestep) record array. -/
def write2 (A : ℕ → ℕ → ℚ) (k t : ℕ) (v : ℚ) : ℕ → ℕ → ℚ :=
  fun a b => if a = k ∧ b = t then v else A a b

/-- Pointwise write of a vector slice into a (dim, trial, timestep)
record array whose first dimension has size nd. -/
def write3 (A : ℕ → ℕ → ℕ → ℚ) (nd k t : ℕ) (v : ℕ → ℚ) : ℕ → ℕ → ℕ → ℚ :=
  fun j a b => if j < nd ∧ a = k ∧ b = t then v j else A j a b

/-- ModelRMHL.build, fixed part: the reservoir and feedback matrices. -/
def buildNet (env : Env) (task : Task) (p : Params) (seed : ℕ) : Net :=
  { J := Jmat env task p seed, Q := Qmat env task p seed }

/-- ModelRMHL.build, mutable part: initial state, zero readout weights,
zero traces and zero-filled recording arrays. -/
def buildState (env : Env) (task : Task) (p : Params) (seed : ℕ) : State :=
  { x := x0 env task p seed
    r := r0 env task p seed
    z := fun _ => 0
    W := fun _ _ => 0
    e := 0
    eBar := 0
    zBar := fun _ => 0
    zRMHLBar := fun _ => 0
    error := fun _ _ => 0
    costRec := fun _ _ => 0
    WRec := fun _ _ => 0
    zRec := fun _ _ _ => 0
    zRMHLRec := fun _ _ _ => 0
    hzRec := fun _ _ _ => 0 }

/-- The seed selection of __init__: a nonzero configured rseed is used
as is, rseed = 0 is replaced by a fresh random draw. -/
def initSeed (rseed draw : ℕ) : ℕ := if rseed = 0 then draw else rseed

/-- Model construction = seed selection followed by build (net part). -/
def initNet (env : Env) (task : Task) (p : Params) (rseed draw : ℕ) : Net :=
  buildNet env task p (initSeed rseed draw)

/-- Model construction = seed selection followed by build (state part). -/
def initState (env : Env) (task : Task) (p : Params) (rseed draw : ℕ) : State :=
  buildState env task p (initSeed rseed draw)

/-- Row i of a matrix-vector product np.dot(M, v) where v has length n. -/
def dotRow (n : ℕ) (M : ℕ → ℕ → ℚ) (v : ℕ → ℚ) (i : ℕ) : ℚ :=
  ∑ j ∈ Finset.range n, M i j * v j

/-- One timestep of ModelRMHL.train (lines 152 to 189): reservoir
update with exploration noise on the activity, perturbed output,
low-pass traces with the first-timestep special case, error, the RMHL
weight update, and the record writes.  uR and uZ are the uniform draws
in the interval from 0 to 1 consumed for xi_r and xi_z at each (trial,
timestep). -/
def trainStep (env : Env) (task : Task) (p : Params) (net : Net)
    (uR uZ : ℕ → ℕ → ℕ → ℚ) (k t : ℕ) (s : State) : State :=
  let x' : ℕ → ℚ := fun i =>
    if i < p.N then
      s.x i + leak p * (-(s.x i) + dotRow p.N net.J s.r i + dotRow p.nOut net.Q s.z i)
    else s.x i
  let r' : ℕ → ℚ := fun i =>
    if i < p.N then env.tanh (x' i) + (uR k t i * p.alpha * 2 - p.alpha) else s.r i
  let tPsi : ℚ := task.psi s.eBar k t
  let zRMHL : ℕ → ℚ := fun j =>
    if j < p.nOut then dotRow p.N s.W r' j + (uZ k t j * tPsi * 2 - tPsi) else 0
  let z' : ℕ → ℚ := zRMHL
  let hz : ℕ → ℚ := task.h z'
  let zRMHLBar' : ℕ → ℚ :=
    if k = 0 ∧ t = 0 then zRMHL
    else fun j => (1 - p.dT / p.tauZ) * s.zRMHLBar j + p.dT / p.tauZ * zRMHL j
  let zRMHLHat : ℕ → ℚ := fun j => zRMHL j - zRMHLBar' j
  let zBar' : ℕ → ℚ :=
    if k = 0 ∧ t = 0 then z'
    else fun j => (1 - p.dT / p.tauZ) * s.zBar j + p.dT / p.tauZ * z' j
  let zHat : ℕ → ℚ := fun j => z' j - zBar' j
  let cost : ℚ := task.cost zHat
  let e' : ℚ := (∑ j ∈ Finset.range 2, (hz j - outputsOf task t j) ^ 2) + cost
  let eBar' : ℚ := if k = 0 ∧ t = 0 then e' else (1 - p.dT) * s.eBar + p.dT * e'
  let eHat : ℚ := e' - eBar'
  let W' : ℕ → ℕ → ℚ := fun j i =>
    if j < p.nOut ∧ i < p.N then
      s.W j i + learningrate * task.phi eHat * (zRMHLHat j * r' i) * task.compensation
    else s.W j i
  { x := x'
    r := r'
    z := z'
    W := W'
    e := e'
    eBar := eBar'
    zBar := zBar'
    zRMHLBar := zRMHLBar'
    error := write2 s.error k t e'
    costRec := write2 s.costRec k t cost
    WRec := write2 s.WRec k t (task.norm W')
    zRec := write3 s.zRec p.nOut k t z'
    zRMHLRec := write3 s.zRMHLRec p.nOut k t zRMHL
    hzRec := write3 s.hzRec 2 k t hz }

/-- The reservoir feedback read by the test phase at trial k, timestep
t: zt = s.z_rec[:, trial_num - 5, time_step]. -/
def testFeedback (k t : ℕ) (s : State) : ℕ → ℚ :=
  fun j => s.zRec j (k - 5) t

/-- One timestep of ModelRMHL.test (lines 199 to 228): reservoir update
driven by the recorded output five trials back, activity without noise,
output without exploration noise, the two output traces (z_RMHL_bar
with constant dT, z_bar with constant dT / tau_z), error, and the
record writes.  No weight update, no e_bar update, no W_RMHL_rec
write. -/
def testStep (env : Env) (task : Task) (p : Params) (net : Net)
    (k t : ℕ) (s : State) : State :=
  let zt : ℕ → ℚ := testFeedback k t s
  let x' : ℕ → ℚ := fun i =>
    if i < p.N then
      s.x i + leak p * (-(s.x i) + dotRow p.N net.J s.r i + dotRow p.nOut net.Q zt i)
    else s.x i
  let r' : ℕ → ℚ := fun i => if i < p.N then env.tanh (x' i) else s.r i
  let zRMHL : ℕ → ℚ := fun j => if j < p.nOut then dotRow p.N s.W r' j else 0
  let z' : ℕ → ℚ := zRMHL
  let hz : ℕ → ℚ := task.h z'
  let zRMHLBar' : ℕ → ℚ := fun j => (1 - p.dT) * s.zRMHLBar j + p.dT * zRMHL j
  let zBar' : ℕ → ℚ := fun j => (1 - p.dT / p.tauZ) * s.zBar j + p.dT / p.tauZ * z' j
  let zHat : ℕ → ℚ := fun j => z' j - zBar' j
  let cost : ℚ := task.cost zHat
  let e' : ℚ := (∑ j ∈ Finset.range 2, (hz j - outputsOf task t j) ^ 2) + cost
  { x := x'
    r := r'
    z := z'
    W := s.W
    e := e'
    eBar := s.eBar
    zBar := zBar'
    zRMHLBar := zRMHLBar'
    error := write2 s.error k t e'
    costRec := write2 s.costRec k t cost
    WRec := s.WRec
    zRec := write3 s.zRec p.nOut k t z'
    zRMHLRec := write3 s.zRMHLRec p.nOut k t zRMHL
    hzRec := write3 s.hzRec 2 k t hz }

/-- The inner timestep loop of one trial. -/
def runTrial (step : ℕ → ℕ → State → State) (nSteps k : ℕ) (s : State) : State :=
  (List.range nSteps).foldl (fun s t => step k t s) s

/-- ModelRMHL.train: trials 0 to n_train_trials - 1. -/
def trainRun (env : Env) (task : Task) (p : Params) (net : Net)
    (uR uZ : ℕ → ℕ → ℕ → ℚ) (s : State) : State :=
  (List.range p.n_train_trials).foldl
    (fun s k => runTrial (trainStep env task p net uR uZ) (nTimesteps p) k s) s

/-- The trial indices of the test loop: n_train_trials to
n_total_trials - 1. -/
def testTrials (p : Params) : List ℕ :=
  (List.range p.n_test_trials).map (fun i => p.n_train_trials + i)

/-- ModelRMHL.test: trials n_train_trials to n_total_trials - 1. -/
def testRun (env : Env) (task : Task) (p : Params) (net : Net) (s : State) : State :=
  (testTrials p).foldl
    (fun s k => runTrial (testStep env task p net) (nTimesteps p) k s) s

/-- Training followed by testing. -/
def fullRun (env : Env) (task : Task) (p : Params) (net : Net)
    (uR uZ : ℕ → ℕ → ℕ → ℚ) (s : State) : State :=
  testRun env task p net (trainRun env task p net uR uZ s)

/-- The state reached by the test phase just before executing timestep t
of test trial k, starting the phase at state s: all test trials before
k complete, then the first t timesteps of trial k. -/
def testPhaseAt (env : Env) (task : Task) (p : Params) (net : Net)
    (s : State) (k t : ℕ) : State :=
  let before :=
    ((List.range (k - p.n_train_trials)).map (fun i => p.n_train_trials + i)).foldl
      (fun s kk => runTrial (testStep env task p net) (nTimesteps p) kk s) s
  (List.range t).foldl (fun s tt => testStep env task p net k tt s) before

/-- The feedback vector actually consumed by the test-phase state update
at (k, t) when the test phase starts from state s. -/
def feedbackUsed (env : Env) (task : Task) (p : Params) (net : Net)
    (s : State) (k t : ℕ) : ℕ → ℚ :=
  testFeedback k t (testPhaseAt env task p net s k t)

/-- Number of nonzero entries of an N by N matrix, as
np.count_nonzero. -/
def countNonzero (p : Params) (M : ℕ → ℕ → ℚ) : ℕ :=
  (((Finset.range p.N) ×ˢ (Finset.range p.N)).filter
    (fun ab => M ab.1 ab.2 ≠ 0)).card

/-- Model of an IEEE double restricted to what the weight-norm fix-up
loop of ModelRMHL.plot observes: an ordinary (finite) value, NaN, or a
signed infinity. -/
inductive FVal where
  | num (q : ℚ)
  | nan
  | inf
  | ninf
deriving DecidableEq

/-- IEEE comparison with 0.0, as evaluated by the expression
v == 0 in the fix-up loop: NaN and the infinities never compare equal
to zero. -/
def FVal.eqZero : FVal → Bool
  | FVal.num q => q == 0
  | FVal.nan => false
  | FVal.inf => false
  | FVal.ninf => false

/-- A degenerate (non-finite) value of the weight-norm series. -/
def FVal.degenerate : FVal → Prop
  | FVal.num _ => False
  | FVal.nan => True
  | FVal.inf => True
  | FVal.ninf => True

/-- One iteration of the fix-up loop of ModelRMHL.plot (and of
plot_distinct): if the entry at index i compares equal to zero it is
overwritten with the entry at index i - 1. -/
def fixupStep (v : ℕ → FVal) (i : ℕ) : ℕ → FVal :=
  if (v i).eqZero then (fun a => if a = i then v (i - 1) else v a) else v

/-- The whole fix-up loop: for i in np.arange(1, n):
if series[i] == 0 then series[i] = series[i-1]. -/
def fixup (n : ℕ) (v : ℕ → FVal) : ℕ → FVal :=
  ((List.range (n - 1)).map (fun i => i + 1)).foldl fixupStep v

/-- A two-element exported weight-norm series holding a valid value at
index 0 and NaN at index 1. -/
def exSeries : ℕ → FVal :=
  fun i => if i = 0 then FVal.num 1 else FVal.nan

/-- The low-pass recurrence of ModelRMHL.plot: the bar array starts as
a copy of the input array, and for i from 1 upward
bar[i] = bar[i-1] + c * (-bar[i-1] + v[i]). -/
def lowpassBar (c : ℚ) (v : ℕ → ℚ) : ℕ → ℚ
  | 0 => v 0
  | i + 1 => lowpassBar c v i + c * (-(lowpassBar c v i) + v (i + 1))

/-- A monotone input sequence used to refute the unrestricted filter
claim: 0 at index 0 and 1 afterwards. -/
def vEx : ℕ → ℚ := fun i => if i = 0 then 0 else 1

/-- A concrete environment instance for witnesses: identity stand-ins
for the real-valued primitives and a constant uniform stream. -/
def env0 : Env :=
  { tanh := fun q => q
    sqrt := fun q => q
    ppf := fun q => q
    ustream := fun _ _ => 1 / 2
    toInt := fun _ _ => 0 }

/-- A concrete task instance: identity output map, zero cost, identity
phi, unit psi and compensation, entry (0,0) as norm, numerator as
round-up, zero target trajectory. -/
def task0 : Task :=
  { psi := fun _ _ _ => 1
    h := fun v => v
    cost := fun _ => 0
    phi := fun q => q
    compensation := 1
    norm := fun M => M 0 0
    roundUp := fun q => q.num.toNat
    dataX := fun _ => 0
    dataY := fun _ => 0 }

/-- A concrete parameter set: one reservoir neuron, one output
dimension, one timestep per trial, six training and six test trials,
dT = 1/2 and tau_z = 2 so that dT and dT / tau_z differ. -/
def p0 : Params :=
  { N := 1
    nOut := 1
    lmbda := 1
    sparsity := 1
    dT := 1 / 2
    tau := 1
    tauW := 1
    tauE := 1
    tauZ := 2
    alpha := 1
    T := 1 / 2
    n_train_trials := 6
    n_test_trials := 6 }

/-- A concrete zero network. -/
def net0 : Net := { J := fun _ _ => 0, Q := fun _ _ => 0 }

/-- A concrete state with a nonzero z_RMHL trace, used to exhibit the
filter-constant divergence of the test step. -/
def st2 : State :=
  { x := fun _ => 0
    r := fun _ => 0
    z := fun _ => 0
    W := fun _ _ => 0
    e := 0
    eBar := 0
    zBar := fun _ => 0
    zRMHLBar := fun _ => 1
    error := fun _ _ => 0
    costRec := fun _ _ => 0
    WRec := fun _ _ => 0
    zRec := fun _ _ _ => 0
    zRMHLRec := fun _ _ _ => 0
    hzRec := fun _ _ _ => 0 }

/-- Environment for the concrete training run of the lag-5 refutation:
the stream is 1/2 everywhere except at the draw feeding the initial
reservoir voltage, making the initial state nonzero. -/
def env1 : Env :=
  { tanh := fun q => q
    sqrt := fun q => q
    ppf := fun q => q
    ustream := fun _ i => if i = 2094 then 3 / 4 else 1 / 2
    toInt := fun _ _ => 0 }

/-- Activity-noise draws for the concrete training run. -/
def uR1 : ℕ → ℕ → ℕ → ℚ := fun _ _ _ => 3 / 4

/-- Output-noise draws for the concrete training run, varied at trial 1
so that the readout weights move away from zero. -/
def uZ1 : ℕ → ℕ → ℕ → ℚ := fun k _ _ => if k = 1 then 1 else 3 / 4

/-- The network of the concrete run. -/
def net1 : Net := buildNet env1 task0 p0 5

/-- The state at the end of training in the concrete run. -/
def sTrain1 : State := trainRun env1 task0 p0 net1 uR1 uZ1 (buildState env1 task0 p0 5)

/-- Parameter set for the reservoir-wiring count analysis: two neurons
and half sparsity, so that two cell positions are requested. -/
def p7 : Params :=
  { N := 2
    nOut := 1
    lmbda := 1
    sparsity := 1 / 2
    dT := 1 / 2
    tau := 1
    tauW := 1
    tauE := 1
    tauZ := 2
    alpha := 1
    T := 1 / 2
    n_train_trials := 6
    n_test_trials := 6 }

/-- Environment whose wiring draws select the two distinct positions
(0,0) and (1,1) and whose first normal draw sits exactly at the median,
where the inverse normal CDF vanishes. -/
def env7c : Env :=
  { tanh := fun q => q
    sqrt := fun q => q
    ppf := fun q => q - 1 / 2
    ustream := fun _ i =>
      if i = 1 ∨ i = 3 ∨ i = 5 then 3 / 4 else if i = 4 then 1 / 2 else 0
    toInt := fun _ q => if q < 1 / 2 then 0 else 1 }

/-- Same wiring as env7c, but both normal draws away from the median,
so both selected positions receive nonzero weights. -/
def env7w : Env :=
  { tanh := fun q => q
    sqrt := fun q => q
    ppf := fun q => q - 1 / 2
    ustream := fun _ i => if i = 1 ∨ i = 3 ∨ i = 4 ∨ i = 5 then 3 / 4 else 0
    toInt := fun _ q => if q < 1 / 2 then 0 else 1 }

attribute [local semireducible] Rat.add Rat.mul Rat.sub Rat.inv

/-- A predicate preserved by every step of a foldl holds of the
result. -/
theorem foldl_inv {σ α : Type} (P : σ → Prop) (f : σ → α → σ) :
    ∀ (l : List α), (∀ a ∈ l, ∀ s, P s → P (f s a)) → ∀ s, P s → P (l.foldl f s) := by
  intro l
  induction l with
  | nil => intro _ s hs; exact hs
  | cons a l ih =>
    intro hpres s hs
    exact ih (fun b hb s2 hs2 => hpres b (List.mem_cons_of_mem a hb) s2 hs2)
      (f s a) (hpres a (List.mem_cons_self a l) s hs)

/-- A predicate preserved by every timestep of a trial holds after the
trial. -/
theorem runTrial_inv (P : State → Prop) (step : ℕ → ℕ → State → State) (nSteps k : ℕ)
    (hstep : ∀ t s, P s → P (step k t s)) :
    ∀ s, P s → P (runTrial step nSteps k s) := by
  intro s hs
  exact foldl_inv P (fun s t => step k t s) (List.range nSteps)
    (fun t _ s2 hs2 => hstep t s2 hs2) s hs

/-- Reading a 2-index record away from the written trial row is
unchanged. -/
theorem write2_ne_trial {A : ℕ → ℕ → ℚ} {k t v a b} (h : a ≠ k) :
    write2 A k t v a b = A a b := by
  unfold write2
  rw [if_neg]
  rintro ⟨h1, -⟩
  exact h h1

/-- Reading a 3-index record away from the written trial row is
unchanged. -/
theorem write3_ne_trial {A : ℕ → ℕ → ℕ → ℚ} {nd k t v j a b} (h : a ≠ k) :
    write3 A nd k t v j a b = A j a b := by
  unfold write3
  rw [if_neg]
  rintro ⟨-, h1, -⟩
  exact h h1

/-- The test step does not touch the readout weights. -/
theorem testStep_W (env : Env) (task : Task) (p : Params) (net : Net) (k t : ℕ) (s : State) :
    (testStep env task p net k t s).W = s.W := rfl

/-- The test step does not touch the weight-norm record. -/
theorem testStep_WRec (env : Env) (task : Task) (p : Params) (net : Net) (k t : ℕ) (s : State) :
    (testStep env task p net k t s).WRec = s.WRec := rfl

/-- The test step writes the output record only at its own trial
row. -/
theorem testStep_zRec_ne (env : Env) (task : Task) (p : Params) (net : Net)
    (k t : ℕ) (s : State) (j a b : ℕ) (h : a ≠ k) :
    (testStep env task p net k t s).zRec j a b = s.zRec j a b := by
  simp only [testStep]
  exact write3_ne_trial h

/-- The training step writes the output record only at its own trial
row. -/
theorem trainStep_zRec_ne (env : Env) (task : Task) (p : Params) (net : Net)
    (uR uZ : ℕ → ℕ → ℕ → ℚ) (k t : ℕ) (s : State) (j a b : ℕ) (h : a ≠ k) :
    (trainStep env task p net uR uZ k t s).zRec j a b = s.zRec j a b := by
  simp only [trainStep]
  exact write3_ne_trial h

/-- The training step writes the weight-norm record only at its own
trial row. -/
theorem trainStep_WRec_ne (env : Env) (task : Task) (p : Params) (net : Net)
    (uR uZ : ℕ → ℕ → ℕ → ℚ) (k t : ℕ) (s : State) (a b : ℕ) (h : a ≠ k) :
    (trainStep env task p net uR uZ k t s).WRec a b = s.WRec a b := by
  simp only [trainStep]
  exact write2_ne_trial h

/-- In both steps the observed-output record and the perturbed-output
record are written with the same guard and the same value, so pointwise
agreement of the two records is preserved by the training step. -/
theorem trainStep_parity (env : Env) (task : Task) (p : Params) (net : Net)
    (uR uZ : ℕ → ℕ → ℕ → ℚ) (k t : ℕ) (s : State)
    (h : ∀ j a b, s.zRec j a b = s.zRMHLRec j a b) :
    ∀ j a b, (trainStep env task p net uR uZ k t s).zRec j a b
      = (trainStep env task p net uR uZ k t s).zRMHLRec j a b := by
  intro j a b
  simp only [trainStep]
  unfold write3
  by_cases hc : j < p.nOut ∧ a = k ∧ b = t
  · rw [if_pos hc, if_pos hc]
  · rw [if_neg hc, if_neg hc]
    exact h j a b

/-- Pointwise agreement of the two output records is preserved by the
test step. -/
theorem testStep_parity (env : Env) (task : Task) (p : Params) (net : Net)
    (k t : ℕ) (s : State)
    (h : ∀ j a b, s.zRec j a b = s.zRMHLRec j a b) :
    ∀ j a b, (testStep env task p net k t s).zRec j a b
      = (testStep env task p net k t s).zRMHLRec j a b := by
  intro j a b
  simp only [testStep]
  unfold write3
  by_cases hc : j < p.nOut ∧ a = k ∧ b = t
  · rw [if_pos hc, if_pos hc]
  · rw [if_neg hc, if_neg hc]
    exact h j a b

/-- Claim C5: after the training step at trial 0, timestep 0 (the very
first timestep of the whole run), every low-pass trace equals its own
instantaneous value exactly: e_bar equals e, z_bar equals z, and
z_RMHL_bar equals z (which is the value z_RMHL of that step); the
first-timestep branch replaces the ordinary filter update. -/
theorem first_timestep_traces_equal_instantaneous
    (env : Env) (task : Task) (p : Params) (net : Net)
    (uR uZ : ℕ → ℕ → ℕ → ℚ) (s : State) :
    (trainStep env task p net uR uZ 0 0 s).eBar = (trainStep env task p net uR uZ 0 0 s).e ∧
    (∀ j, (trainStep env task p net uR uZ 0 0 s).zBar j = (trainStep env task p net uR uZ 0 0 s).z j) ∧
    (∀ j, (trainStep env task p net uR uZ 0 0 s).zRMHLBar j = (trainStep env task p net uR uZ 0 0 s).z j) := by
  refine ⟨?_, ?_, ?_⟩ <;> simp [trainStep]

/-- Claim C6: the whole test phase never mutates the readout weight
matrix W_RMHL: its value after all test trials is equal to its value
when testing began. -/
theorem test_phase_freezes_readout (env : Env) (task : Task) (p : Params)
    (net : Net) (s : State) :
    (testRun env task p net s).W = s.W := by
  unfold testRun
  refine foldl_inv (fun s2 => s2.W = s.W) _ (testTrials p) ?_ s rfl
  intro k _ s2 hs2
  refine runTrial_inv (fun s3 => s3.W = s.W) _ (nTimesteps p) k ?_ s2 hs2
  intro t s3 hs3
  rw [testStep_W]
  exact hs3

/-- Claim C2 (amended): at every test timestep the output is computed
from the frozen readout weights and the noise-free activity, no weight
update and no e_bar update is applied, the z_bar trace uses the filter
constant dT / tau_z as during training, but the z_RMHL_bar trace uses
the filter constant dT instead of dT / tau_z. -/
theorem testStep_output_and_traces (env : Env) (task : Task) (p : Params)
    (net : Net) (k t : ℕ) (s : State) :
    (testStep env task p net k t s).W = s.W ∧
    (testStep env task p net k t s).eBar = s.eBar ∧
    (∀ j, (testStep env task p net k t s).zBar j =
      (1 - p.dT / p.tauZ) * s.zBar j + p.dT / p.tauZ * (testStep env task p net k t s).z j) ∧
    (∀ j, (testStep env task p net k t s).zRMHLBar j =
      (1 - p.dT) * s.zRMHLBar j + p.dT * (testStep env task p net k t s).z j) ∧
    (∀ i, i < p.N → (testStep env task p net k t s).r i =
      env.tanh ((testStep env task p net k t s).x i)) ∧
    (∀ j, j < p.nOut → (testStep env task p net k t s).z j =
      dotRow p.N s.W ((testStep env task p net k t s).r) j) := by
  refine ⟨rfl, rfl, fun j => rfl, fun j => rfl, ?_, ?_⟩
  · intro i hi
    simp only [testStep]
    rw [if_pos hi]
  · intro j hj
    simp only [testStep]
    rw [if_pos hj]

/-- Claim C2, counterexample: with dT = 1/2 and tau_z = 2 the test-step
update of z_RMHL_bar does not follow the training-phase filter constant
dT / tau_z: the claimed equality fails on a concrete state. -/
theorem testStep_zRMHLBar_constant_differs :
    (testStep env0 task0 p0 net0 6 0 st2).zRMHLBar 0 ≠
      (1 - p0.dT / p0.tauZ) * st2.zRMHLBar 0 +
        p0.dT / p0.tauZ * (testStep env0 task0 p0 net0 6 0 st2).z 0 := by
  decide

/-- Claim C4: with a nonzero configured seed, model construction does
not depend on the ambient random draw that would replace a zero seed:
two instances built from the same seed and parameters have identical
reservoir matrix J, feedback matrix Q (the Net), and identical initial
state, in particular x and r = tanh(x). -/
theorem build_deterministic_for_nonzero_seed (env : Env) (task : Task) (p : Params)
    (rseed : ℕ) (h : rseed ≠ 0) (d1 d2 : ℕ) :
    initNet env task p rseed d1 = initNet env task p rseed d2 ∧
    initState env task p rseed d1 = initState env task p rseed d2 := by
  unfold initNet initState initSeed
  simp [h]

/-- Witness for claim C4 at a concrete nonzero seed and two different
ambient draws. -/
theorem build_deterministic_witness :
    initNet env0 task0 p0 1 0 = initNet env0 task0 p0 1 7 ∧
    initState env0 task0 p0 1 0 = initState env0 task0 p0 1 7 :=
  build_deterministic_for_nonzero_seed env0 task0 p0 1 (by decide) 0 7

/-- Claim C3: the fix-up loop of the plotting stage does not replace a
NaN entry of the weight-norm series: the IEEE comparison with zero is
false on NaN, so the entry at index 1 of the series (1.0, NaN) is left
as NaN instead of being replaced by the last valid value 1.0, although
the in-code comment announces an adjustment for NaN and Inf. -/
theorem fixup_leaves_nan_in_place :
    (fixup 2 exSeries) 1 = FVal.nan ∧
    FVal.degenerate ((fixup 2 exSeries) 1) ∧
    (fixup 2 exSeries) 1 ≠ FVal.num 1 := by
  refine ⟨rfl, ?_, by decide⟩
  show FVal.degenerate FVal.nan
  trivial

/-- Pointwise agreement of the observed-output and perturbed-output
records is preserved through the whole run. -/
theorem run_parity (env : Env) (task : Task) (p : Params) (net : Net)
    (uR uZ : ℕ → ℕ → ℕ → ℚ) (s : State)
    (h : ∀ j a b, s.zRec j a b = s.zRMHLRec j a b) :
    ∀ j a b, (fullRun env task p net uR uZ s).zRec j a b
      = (fullRun env task p net uR uZ s).zRMHLRec j a b := by
  unfold fullRun
  have h1 : ∀ j a b, (trainRun env task p net uR uZ s).zRec j a b
      = (trainRun env task p net uR uZ s).zRMHLRec j a b := by
    unfold trainRun
    refine foldl_inv (fun s2 : State => ∀ j a b, s2.zRec j a b = s2.zRMHLRec j a b) _ _ ?_ s h
    intro kk _ s2 hs2
    refine runTrial_inv (fun s3 : State => ∀ j a b, s3.zRec j a b = s3.zRMHLRec j a b) _ _ kk ?_ s2 hs2
    intro tt s3 hs3
    exact trainStep_parity env task p net uR uZ kk tt s3 hs3
  unfold testRun
  refine foldl_inv (fun s2 : State => ∀ j a b, s2.zRec j a b = s2.zRMHLRec j a b) _ _ ?_ _ h1
  intro kk _ s2 hs2
  refine runTrial_inv (fun s3 : State => ∀ j a b, s3.zRec j a b = s3.zRMHLRec j a b) _ _ kk ?_ s2 hs2
  intro tt s3 hs3
  exact testStep_parity env task p net kk tt s3 hs3

/-- Claim C9: in the run following model construction, at every
(dimension, trial, timestep) the recorded observed output z equals the
recorded perturbed output z_RMHL, because in both phases s.z is
assigned the value z_RMHL before recording. -/
theorem exported_z_equals_zRMHL (env : Env) (task : Task) (p : Params)
    (rseed draw : ℕ) (uR uZ : ℕ → ℕ → ℕ → ℚ) (j k t : ℕ) :
    (fullRun env task p (initNet env task p rseed draw) uR uZ
      (initState env task p rseed draw)).zRec j k t
    = (fullRun env task p (initNet env task p rseed draw) uR uZ
      (initState env task p rseed draw)).zRMHLRec j k t :=
  run_parity env task p (initNet env task p rseed draw) uR uZ
    (initState env task p rseed draw) (fun _ _ _ => rfl) j k t

/-- A zero entry of the weight-norm record in a trial row at or beyond
the training block survives the whole run. -/
theorem run_WRec_test_block (env : Env) (task : Task) (p : Params) (net : Net)
    (uR uZ : ℕ → ℕ → ℕ → ℚ) (s : State) (k t : ℕ)
    (hk : p.n_train_trials ≤ k) (hs : s.WRec k t = 0) :
    (fullRun env task p net uR uZ s).WRec k t = 0 := by
  unfold fullRun
  have htest : ∀ s2 : State, (testRun env task p net s2).WRec = s2.WRec := by
    intro s2
    unfold testRun
    refine foldl_inv (fun s3 : State => s3.WRec = s2.WRec) _ _ ?_ s2 rfl
    intro kk _ s3 hs3
    refine runTrial_inv (fun s4 : State => s4.WRec = s2.WRec) _ _ kk ?_ s3 hs3
    intro tt s4 hs4
    rw [testStep_WRec]
    exact hs4
  rw [htest]
  unfold trainRun
  refine foldl_inv (fun s2 : State => s2.WRec k t = 0) _ _ ?_ s hs
  intro kk hkk s2 hs2
  have hkk2 : kk < p.n_train_trials := List.mem_range.1 hkk
  refine runTrial_inv (fun s3 : State => s3.WRec k t = 0) _ _ kk ?_ s2 hs2
  intro tt s3 hs3
  rw [trainStep_WRec_ne env task p net uR uZ kk tt s3 k t (by omega)]
  exact hs3

/-- Claim C10: the test phase never writes the weight-norm record, so
after training plus testing every entry of W_RMHL_rec in a test-block
row (trial at or beyond n_train_trials) still holds its build-time
value zero. -/
theorem test_block_weight_norm_record_zero (env : Env) (task : Task) (p : Params)
    (rseed draw : ℕ) (uR uZ : ℕ → ℕ → ℕ → ℚ) (k t : ℕ)
    (hk : p.n_train_trials ≤ k) :
    (fullRun env task p (initNet env task p rseed draw) uR uZ
      (initState env task p rseed draw)).WRec k t = 0 :=
  run_WRec_test_block env task p (initNet env task p rseed draw) uR uZ
    (initState env task p rseed draw) k t hk rfl

/-- Witness for claim C10 at a concrete run and the first test-block
row. -/
theorem test_block_weight_norm_record_zero_witness :
    (fullRun env0 task0 p0 (initNet env0 task0 p0 1 0) uR1 uZ1
      (initState env0 task0 p0 1 0)).WRec 6 0 = 0 :=
  test_block_weight_norm_record_zero env0 task0 p0 1 0 uR1 uZ1 6 0 (by decide)

/-- Claim C1 (amended): for a test trial k with k - 5 still inside the
training block (the first five test trials), the feedback consumed at
(k, t) equals the value the record z_rec holds at (k - 5, t) when the
test phase starts, i.e. the recorded training output; for later test
trials the source row k - 5 lies in the test block, where the record no
longer holds a training output (see the counterexample). -/
theorem test_feedback_from_training_block (env : Env) (task : Task) (p : Params)
    (net : Net) (s : State) (k t j : ℕ)
    (h5 : 5 ≤ p.n_train_trials) (hk : p.n_train_trials ≤ k) (hk2 : k < nTotal p)
    (hsrc : k - 5 < p.n_train_trials) :
    feedbackUsed env task p net s k t j = s.zRec j (k - 5) t := by
  simp only [feedbackUsed, testFeedback, testPhaseAt]
  refine foldl_inv (fun s2 : State => s2.zRec j (k - 5) t = s.zRec j (k - 5) t) _ (List.range t) ?_ _ ?_
  · intro tt _ s2 hs2
    rw [testStep_zRec_ne env task p net k tt s2 j (k - 5) t (by omega)]
    exact hs2
  · refine foldl_inv (fun s2 : State => s2.zRec j (k - 5) t = s.zRec j (k - 5) t) _ _ ?_ s rfl
    intro kk hkk s2 hs2
    obtain ⟨i, hi, rfl⟩ := List.mem_map.1 hkk
    refine runTrial_inv (fun s3 : State => s3.zRec j (k - 5) t = s.zRec j (k - 5) t) _ _ _ ?_ s2 hs2
    intro tt s3 hs3
    rw [testStep_zRec_ne env task p net _ tt s3 j (k - 5) t (by omega)]
    exact hs3

/-- Witness for claim C1 at the first test trial of a concrete model:
its feedback row 1 lies in the training block. -/
theorem test_feedback_from_training_block_witness :
    feedbackUsed env0 task0 p0 net0 (buildState env0 task0 p0 3) 6 0 0 =
      (buildState env0 task0 p0 3).zRec 0 1 0 :=
  test_feedback_from_training_block env0 task0 p0 net0 (buildState env0 task0 p0 3)
    6 0 0 (by decide) (by decide) (by decide) (by decide)

/-- Claim C1, counterexample: in a concrete run with six training and
six test trials, the feedback consumed at test trial 11 (reading row
6 = 11 - 5) differs from the recorded training output at trial 6,
timestep 0 - the record the training phase left there (zero, row 6 was
never written during training).  The value actually consumed is the
test-phase output recorded at test trial 6, so for test trials beyond
the fifth the feedback is not sourced from the training block. -/
theorem test_feedback_not_training_output :
    feedbackUsed env1 task0 p0 net1 sTrain1 11 0 0 ≠ sTrain1.zRec 0 6 0 := by
  decide

/-- Claim C7 (amended): after build the reservoir matrix J has at most
round(N * N * sparsity) nonzero entries, and exactly that many when the
drawn index pairs are pairwise distinct, lie inside the N by N grid,
and every assigned sample (normal draw times sigma) is nonzero;
index-pair collisions or a sample equal to zero reduce the count. -/
theorem reservoir_nonzero_count (env : Env) (task : Task) (p : Params) (seed : ℕ) :
    countNonzero p (Jmat env task p seed) ≤ JneOf task p ∧
    ((∀ i, i < JneOf task p → ∀ i2, i2 < JneOf task p →
        (idxX env task p seed i, idxY env task p seed i)
          = (idxX env task p seed i2, idxY env task p seed i2) → i = i2) →
      (∀ i, i < JneOf task p →
        idxX env task p seed i < p.N ∧ idxY env task p seed i < p.N) →
      (∀ a, a < p.N → ∀ b, b < p.N → (a, b) ∈ selPairs env task p seed →
        env.ppf (env.ustream seed
          (2 * JneOf task p + rowRank (selPairs env task p seed) a b)) * sigmaOf env p ≠ 0) →
      countNonzero p (Jmat env task p seed) = JneOf task p) := by
  have hsub : (((Finset.range p.N) ×ˢ (Finset.range p.N)).filter
      (fun ab => Jmat env task p seed ab.1 ab.2 ≠ 0)) ⊆ selPairs env task p seed := by
    intro ab hab
    obtain ⟨-, hnz⟩ := Finset.mem_filter.1 hab
    by_contra hcon
    apply hnz
    unfold Jmat
    rw [if_neg]
    rintro ⟨-, -, h3⟩
    exact hcon h3
  constructor
  · calc countNonzero p (Jmat env task p seed)
        ≤ (selPairs env task p seed).card := Finset.card_le_card hsub
      _ ≤ (Finset.range (JneOf task p)).card := Finset.card_image_le
      _ = JneOf task p := Finset.card_range _
  · intro hinj hgrid hnz
    have hsup : selPairs env task p seed ⊆
        (((Finset.range p.N) ×ˢ (Finset.range p.N)).filter
          (fun ab => Jmat env task p seed ab.1 ab.2 ≠ 0)) := by
      intro ab hab
      obtain ⟨i, hi, hval⟩ := Finset.mem_image.1 hab
      have hi2 : i < JneOf task p := Finset.mem_range.1 hi
      obtain ⟨hx, hy⟩ := hgrid i hi2
      have hab1 : ab.1 < p.N := by rw [← hval]; exact hx
      have hab2 : ab.2 < p.N := by rw [← hval]; exact hy
      refine Finset.mem_filter.2 ⟨?_, ?_⟩
      · exact Finset.mem_product.2 ⟨Finset.mem_range.2 hab1, Finset.mem_range.2 hab2⟩
      · unfold Jmat
        rw [if_pos ⟨hab1, hab2, hab⟩]
        exact hnz ab.1 hab1 ab.2 hab2 hab
    have heq : (((Finset.range p.N) ×ˢ (Finset.range p.N)).filter
        (fun ab => Jmat env task p seed ab.1 ab.2 ≠ 0)) = selPairs env task p seed :=
      Finset.Subset.antisymm hsub hsup
    calc countNonzero p (Jmat env task p seed)
        = (selPairs env task p seed).card := congrArg Finset.card heq
      _ = (Finset.range (JneOf task p)).card := by
          refine Finset.card_image_of_injOn ?_
          intro i hi i2 hi2 hval
          exact hinj i (Finset.mem_range.1 (Finset.mem_coe.1 hi))
            i2 (Finset.mem_range.1 (Finset.mem_coe.1 hi2)) hval
      _ = JneOf task p := Finset.card_range _

/-- Witness for claim C7: a concrete two-neuron build with distinct
in-grid index pairs and nonzero samples realises exactly the requested
count of nonzero reservoir entries. -/
theorem reservoir_nonzero_count_witness :
    countNonzero p7 (Jmat env7w task0 p7 11) = JneOf task0 p7 :=
  (reservoir_nonzero_count env7w task0 p7 11).2 (by decide) (by decide) (by decide)

/-- Claim C7, counterexample: a concrete two-neuron build whose two
drawn index pairs are distinct (no collision) still produces fewer
nonzero entries than round(N * N * sparsity), because one normal draw
sits at the median of the distribution, where the inverse CDF is
exactly zero. -/
theorem reservoir_count_short_without_collision :
    (∀ i, i < JneOf task0 p7 → ∀ i2, i2 < JneOf task0 p7 →
      (idxX env7c task0 p7 11 i, idxY env7c task0 p7 11 i)
        = (idxX env7c task0 p7 11 i2, idxY env7c task0 p7 11 i2) → i = i2) ∧
    countNonzero p7 (Jmat env7c task0 p7 11) ≠ JneOf task0 p7 := by
  constructor
  · decide
  · decide

/-- Monotone low-pass output and its bounds (claim C8, amended): for a
filter constant between 0 and 1 and a monotone input sequence, the bar
trace of the plotting stage (started, as in the code, at the first
input element) is non-decreasing, bounded below by the initial value
and bounded above by every upper bound of the input sequence. -/
theorem lowpass_monotone_bounded (c : ℚ) (v : ℕ → ℚ)
    (h0 : 0 ≤ c) (h1 : c ≤ 1) (hv : Monotone v) :
    Monotone (lowpassBar c v) ∧
    (∀ i, v 0 ≤ lowpassBar c v i) ∧
    (∀ B, (∀ i2, v i2 ≤ B) → ∀ i, lowpassBar c v i ≤ B) := by
  have key : ∀ i, v 0 ≤ lowpassBar c v i ∧ lowpassBar c v i ≤ v i := by
    intro i
    induction i with
    | zero => exact ⟨le_refl _, le_refl _⟩
    | succ i ih =>
      obtain ⟨ih1, ih2⟩ := ih
      have hmono : v i ≤ v (i + 1) := hv (Nat.le_succ i)
      constructor
      · show v 0 ≤ lowpassBar c v i + c * (-(lowpassBar c v i) + v (i + 1))
        nlinarith
      · show lowpassBar c v i + c * (-(lowpassBar c v i) + v (i + 1)) ≤ v (i + 1)
        nlinarith
  have hstep : ∀ i, lowpassBar c v i ≤ lowpassBar c v (i + 1) := by
    intro i
    have h2 := (key i).2
    have hmono : v i ≤ v (i + 1) := hv (Nat.le_succ i)
    show lowpassBar c v i ≤ lowpassBar c v i + c * (-(lowpassBar c v i) + v (i + 1))
    nlinarith
  refine ⟨monotone_nat_of_le_succ hstep, fun i => (key i).1, ?_⟩
  intro B hB i
  exact le_trans (key i).2 (hB i)

/-- Witness for claim C8 with the filter constant 1/2 and the identity
input sequence. -/
theorem lowpass_monotone_bounded_witness :
    Monotone (lowpassBar (1 / 2 : ℚ) (fun i => (i : ℚ))) :=
  (lowpass_monotone_bounded (1 / 2) (fun i => (i : ℚ)) (by norm_num) (by norm_num)
    (fun a b hab => by exact_mod_cast Nat.cast_le.mpr hab)).1

/-- Claim C8, counterexample: with the filter constant 2 (the claim
quantifies over every constant) and the monotone input 0, 1, 1, ...,
the bar trace overshoots the supremum 1 of the input at index 1 and
then decreases from index 1 to index 2. -/
theorem lowpass_fails_for_large_constant :
    Monotone vEx ∧ (∀ i2, vEx i2 ≤ 1) ∧
    1 < lowpassBar 2 vEx 1 ∧ lowpassBar 2 vEx 2 < lowpassBar 2 vEx 1 := by
  refine ⟨?_, ?_, ?_, ?_⟩
  · intro a b hab
    by_cases ha : a = 0
    · subst ha
      by_cases hb : b = 0 <;> simp [vEx, hb]
    · have hb : b ≠ 0 := by omega
      simp [vEx, ha, hb]
  · intro i2
    by_cases h : i2 = 0 <;> simp [vEx, h]
  · show (1 : ℚ) < lowpassBar 2 vEx 0 + 2 * (-(lowpassBar 2 vEx 0) + vEx 1)
    norm_num [lowpassBar, vEx]
  · show lowpassBar 2 vEx 1 + 2 * (-(lowpassBar 2 vEx 1) + vEx 2) < lowpassBar 2 vEx 1
    norm_num [lowpassBar, vEx]

end SupertrexRMHL
